import Mathlib

/-
  Verification of the frustum side-plane derivation in
  `src/test_files/frustum_math.py`.

  The Python code works with numpy float vectors; the shallow embedding below
  models the same arithmetic over the real numbers.  Machine division by zero
  (which yields NaN in numpy) corresponds to the real-field convention
  `x / 0 = 0`; the degenerate-input theorems make this correspondence explicit.
-/

set_option maxHeartbeats 1000000

noncomputable section

/-- A 3-component vector, mirroring the numpy arrays of the source. -/
@[ext]
structure Vec3 where
  x : ℝ
  y : ℝ
  z : ℝ

/-- A quaternion `[x, y, z, w]` (vector part first, scalar last), mirroring the
4-element list returned by `from_axis_angle` in the source. -/
@[ext]
structure Quat where
  x : ℝ
  y : ℝ
  z : ℝ
  w : ℝ

/-- Componentwise vector addition (numpy `+`). -/
def vadd (a b : Vec3) : Vec3 := ⟨a.x + b.x, a.y + b.y, a.z + b.z⟩

/-- Scalar multiplication (numpy `v * c`). -/
def smul (c : ℝ) (v : Vec3) : Vec3 := ⟨c * v.x, c * v.y, c * v.z⟩

/-- Componentwise division of a vector by a scalar (numpy `v / c`). -/
def vdiv (v : Vec3) (c : ℝ) : Vec3 := ⟨v.x / c, v.y / c, v.z / c⟩

/-- Dot product (numpy `np.dot`). -/
def dot (a b : Vec3) : ℝ := a.x * b.x + a.y * b.y + a.z * b.z

/-- Cross product (numpy `np.cross`). -/
def cross (a b : Vec3) : Vec3 :=
  ⟨a.y * b.z - a.z * b.y, a.z * b.x - a.x * b.z, a.x * b.y - a.y * b.x⟩

/-- Euclidean length (numpy `np.linalg.norm`). -/
def vnorm (v : Vec3) : ℝ := Real.sqrt (dot v v)

/-- The zero vector `(0, 0, 0)`. -/
def vzero : Vec3 := ⟨0, 0, 0⟩

/-- `np.deg2rad`. -/
def deg2rad (d : ℝ) : ℝ := d * Real.pi / 180

/-- Source `from_axis_angle(axis, angle)`:
`(s, c) = (sin(angle/2), cos(angle/2))`, vector part `axis * s`, scalar `c`. -/
def from_axis_angle (axis : Vec3) (angle : ℝ) : Quat :=
  let s := Real.sin (angle / 2)
  let c := Real.cos (angle / 2)
  ⟨axis.x * s, axis.y * s, axis.z * s, c⟩

/-- Source `mul_quat_vec(q, v)`:
`vec = q[0..2]; tmp = cross(vec, v) + v*q[3]; return cross(vec, tmp)*2 + v`. -/
def mul_quat_vec (q : Quat) (v : Vec3) : Vec3 :=
  let vec : Vec3 := ⟨q.x, q.y, q.z⟩
  let tmp := vadd (cross vec v) (smul q.w v)
  vadd (smul 2 (cross vec tmp)) v

/-- A plane in point-normal form: unit normal plus offset `d`. -/
structure Plane where
  normal : Vec3
  d : ℝ

/-- The aggregate of the four side planes (top, bottom, left, right). -/
structure FrustumSidePlanes where
  top : Plane
  bottom : Plane
  left : Plane
  right : Plane

/-- Everything `find_planes` computes: the camera basis and the four planes. -/
structure FindPlanesResult where
  position : Vec3
  front : Vec3
  up_norm : Vec3
  right : Vec3
  planes : FrustumSidePlanes

/-- Source `find_planes(eye, target, up, aspect, fovy, znear, zfar)`.

The plotting and printing statements of the source are pure side effects and
are not modelled; the embedding returns the values the source computes:
the basis `front`, `up_norm`, `right` and the four plane normals, each paired
with the offset `d = dot(normal, position)` that the source computes for the
point-normal plane equation. -/
def find_planes (eye target up : Vec3) (aspect fovy znear zfar : ℝ) :
    FindPlanesResult :=
  let position := eye
  let front := vdiv target (vnorm target)
  let up_norm := vdiv up (vnorm up)
  let right := vdiv (cross front up_norm) (vnorm (cross front up_norm))
  let half_fov_rad := deg2rad fovy * 0.5
  let half_fov_h_rad := Real.arctan (Real.tan half_fov_rad * aspect)
  let first_rotation := from_axis_angle right half_fov_rad
  let top_direction := mul_quat_vec first_rotation front
  let second_rotation := from_axis_angle right (-Real.pi / 2)
  let top_normal_raw := mul_quat_vec second_rotation top_direction
  let top_normal := vdiv top_normal_raw (vnorm top_normal_raw)
  let first_rotation_b := from_axis_angle right (-half_fov_rad)
  let bottom_direction := mul_quat_vec first_rotation_b front
  let second_rotation_b := from_axis_angle right (Real.pi / 2)
  let bottom_normal_raw := mul_quat_vec second_rotation_b bottom_direction
  let bottom_normal := vdiv bottom_normal_raw (vnorm bottom_normal_raw)
  let left_edge_rotation := from_axis_angle up_norm half_fov_h_rad
  let left_edge_direction := mul_quat_vec left_edge_rotation front
  let left_normal_raw := cross left_edge_direction up_norm
  let left_normal := vdiv left_normal_raw (vnorm left_normal_raw)
  let right_edge_rotation := from_axis_angle up_norm (-half_fov_h_rad)
  let right_edge_direction := mul_quat_vec right_edge_rotation front
  let right_normal_raw := cross right_edge_direction up_norm
  let right_normal := vdiv right_normal_raw (vnorm right_normal_raw)
  { position := position
    front := front
    up_norm := up_norm
    right := right
    planes :=
      { top := ⟨top_normal, dot top_normal position⟩
        bottom := ⟨bottom_normal, dot bottom_normal position⟩
        left := ⟨left_normal, dot left_normal position⟩
        right := ⟨right_normal, dot right_normal position⟩ } }

/-- Validity of the inputs, as the spec states it: nonzero `view_direction`
and `world_up`, the two not parallel, positive aspect, `fovy` in `(0, 180)`. -/
def ValidInput (target up : Vec3) (aspect fovy : ℝ) : Prop :=
  target ≠ vzero ∧ up ≠ vzero ∧ cross target up ≠ vzero ∧
    0 < aspect ∧ 0 < fovy ∧ fovy < 180

/- ### Basic vector lemmas -/

lemma dot_self_nonneg (v : Vec3) : 0 ≤ dot v v := by
  simp only [dot]
  nlinarith [mul_self_nonneg v.x, mul_self_nonneg v.y, mul_self_nonneg v.z]

lemma dot_self_pos (v : Vec3) (h : v ≠ vzero) : 0 < dot v v := by
  rcases (dot_self_nonneg v).lt_or_eq with h1 | h1
  · exact h1
  · exfalso
    apply h
    obtain ⟨a, b, c⟩ := v
    simp only [dot] at h1
    have hxx : a * a = 0 := by nlinarith [mul_self_nonneg b, mul_self_nonneg c]
    have hyy : b * b = 0 := by nlinarith [mul_self_nonneg a, mul_self_nonneg c]
    have hzz : c * c = 0 := by nlinarith [mul_self_nonneg a, mul_self_nonneg b]
    simp only [vzero, Vec3.mk.injEq]
    exact ⟨mul_self_eq_zero.mp hxx, mul_self_eq_zero.mp hyy, mul_self_eq_zero.mp hzz⟩

lemma vnorm_nonneg (v : Vec3) : 0 ≤ vnorm v := Real.sqrt_nonneg _

lemma vnorm_pos (v : Vec3) (h : v ≠ vzero) : 0 < vnorm v :=
  Real.sqrt_pos.mpr (dot_self_pos v h)

lemma sq_vnorm (v : Vec3) : vnorm v ^ 2 = dot v v :=
  Real.sq_sqrt (dot_self_nonneg v)

lemma dot_self_eq_one_of_vnorm (v : Vec3) (h : vnorm v = 1) : dot v v = 1 := by
  have h1 := sq_vnorm v
  rw [h] at h1
  simpa using h1.symm

lemma ne_vzero_of_dot_pos (v : Vec3) (h : 0 < dot v v) : v ≠ vzero := by
  intro h0
  rw [h0] at h
  simp [dot, vzero] at h

lemma ne_vzero_of_vnorm_one (v : Vec3) (h : vnorm v = 1) : v ≠ vzero :=
  ne_vzero_of_dot_pos v (by rw [dot_self_eq_one_of_vnorm v h]; norm_num)

lemma dot_vdiv_self (v : Vec3) (c : ℝ) :
    dot (vdiv v c) (vdiv v c) = dot v v / c ^ 2 := by
  simp only [vdiv, dot]
  ring

lemma vnorm_normalize (v : Vec3) (h : v ≠ vzero) : vnorm (vdiv v (vnorm v)) = 1 := by
  have hp := dot_self_pos v h
  have h1 : dot (vdiv v (vnorm v)) (vdiv v (vnorm v)) = 1 := by
    rw [dot_vdiv_self, sq_vnorm, div_self (ne_of_gt hp)]
  show Real.sqrt (dot (vdiv v (vnorm v)) (vdiv v (vnorm v))) = 1
  rw [h1, Real.sqrt_one]

lemma vdiv_ne_vzero (v : Vec3) (c : ℝ) (hv : v ≠ vzero) (hc : c ≠ 0) :
    vdiv v c ≠ vzero := by
  intro h0
  apply hv
  obtain ⟨a, b, d⟩ := v
  simp only [vdiv, vzero, Vec3.mk.injEq] at h0 ⊢
  obtain ⟨h1, h2, h3⟩ := h0
  exact ⟨(div_eq_zero_iff.mp h1).resolve_right hc,
    (div_eq_zero_iff.mp h2).resolve_right hc,
    (div_eq_zero_iff.mp h3).resolve_right hc⟩

lemma cross_vdiv (a b : Vec3) (s t : ℝ) :
    cross (vdiv a s) (vdiv b t) = vdiv (cross a b) (s * t) := by
  ext <;> simp only [cross, vdiv] <;> ring

lemma dot_vdiv_left (v w : Vec3) (c : ℝ) : dot (vdiv v c) w = dot v w / c := by
  simp only [vdiv, dot]
  ring

lemma dot_cross_left (a b : Vec3) : dot (cross a b) a = 0 := by
  simp only [cross, dot]
  ring

lemma dot_cross_right (a b : Vec3) : dot (cross a b) b = 0 := by
  simp only [cross, dot]
  ring

lemma lagrange_identity (a b : Vec3) :
    dot (cross a b) (cross a b) = dot a a * dot b b - dot a b ^ 2 := by
  simp only [cross, dot]
  ring

/- ### Quaternion rotation lemmas -/

lemma from_axis_angle_def (a : Vec3) (θ : ℝ) :
    from_axis_angle a θ =
      ⟨a.x * Real.sin (θ / 2), a.y * Real.sin (θ / 2), a.z * Real.sin (θ / 2),
        Real.cos (θ / 2)⟩ := rfl

lemma rot_dot_self (qx qy qz qw : ℝ) (v : Vec3)
    (h : qx ^ 2 + qy ^ 2 + qz ^ 2 + qw ^ 2 = 1) :
    dot (mul_quat_vec ⟨qx, qy, qz, qw⟩ v) (mul_quat_vec ⟨qx, qy, qz, qw⟩ v) =
      dot v v := by
  simp only [mul_quat_vec, cross, vadd, smul, dot]
  linear_combination (4 * (qx ^ 2 + qy ^ 2 + qz ^ 2) * (v.x ^ 2 + v.y ^ 2 + v.z ^ 2)
    - 4 * (qx * v.x + qy * v.y + qz * v.z) ^ 2) * h

lemma unit_quat_of_unit_axis (a : Vec3) (θ : ℝ) (ha : dot a a = 1) :
    (a.x * Real.sin (θ / 2)) ^ 2 + (a.y * Real.sin (θ / 2)) ^ 2 +
      (a.z * Real.sin (θ / 2)) ^ 2 + Real.cos (θ / 2) ^ 2 = 1 := by
  simp only [dot] at ha
  linear_combination Real.sin (θ / 2) ^ 2 * ha + Real.sin_sq_add_cos_sq (θ / 2)

lemma rot_preserves_dot_self (a : Vec3) (θ : ℝ) (v : Vec3) (ha : dot a a = 1) :
    dot (mul_quat_vec (from_axis_angle a θ) v)
        (mul_quat_vec (from_axis_angle a θ) v) = dot v v := by
  rw [from_axis_angle_def]
  exact rot_dot_self _ _ _ _ v (unit_quat_of_unit_axis a θ ha)

lemma rot_vnorm (a : Vec3) (θ : ℝ) (v : Vec3) (ha : dot a a = 1) :
    vnorm (mul_quat_vec (from_axis_angle a θ) v) = vnorm v := by
  show Real.sqrt _ = Real.sqrt _
  rw [rot_preserves_dot_self a θ v ha]

lemma rot_unrot (qx qy qz qw : ℝ) (v : Vec3)
    (h : qx ^ 2 + qy ^ 2 + qz ^ 2 + qw ^ 2 = 1) :
    mul_quat_vec ⟨-qx, -qy, -qz, qw⟩ (mul_quat_vec ⟨qx, qy, qz, qw⟩ v) = v := by
  ext
  · simp only [mul_quat_vec, cross, vadd, smul]
    linear_combination (4 * (qx ^ 2 + qy ^ 2 + qz ^ 2) * v.x
      - 4 * (qx * v.x + qy * v.y + qz * v.z) * qx) * h
  · simp only [mul_quat_vec, cross, vadd, smul]
    linear_combination (4 * (qx ^ 2 + qy ^ 2 + qz ^ 2) * v.y
      - 4 * (qx * v.x + qy * v.y + qz * v.z) * qy) * h
  · simp only [mul_quat_vec, cross, vadd, smul]
    linear_combination (4 * (qx ^ 2 + qy ^ 2 + qz ^ 2) * v.z
      - 4 * (qx * v.x + qy * v.y + qz * v.z) * qz) * h

lemma rot_dot_axis (r v : Vec3) (θ : ℝ) :
    dot (mul_quat_vec (from_axis_angle r θ) v) r = dot v r := by
  simp only [mul_quat_vec, from_axis_angle, cross, vadd, smul, dot]
  ring

lemma quarter_rot_neg (r t : Vec3) (θ : ℝ) (hr : dot r r = 1) (ht : dot t r = 0)
    (hs : 2 * Real.sin (θ / 2) ^ 2 = 1)
    (hws : 2 * Real.cos (θ / 2) * Real.sin (θ / 2) = -1) :
    mul_quat_vec (from_axis_angle r θ) t = cross t r := by
  simp only [dot] at hr ht
  ext
  · simp only [mul_quat_vec, from_axis_angle, cross, vadd, smul]
    linear_combination (-t.x) * hs + (-(2 * Real.sin (θ / 2) ^ 2 * t.x)) * hr +
      (r.y * t.z - r.z * t.y) * hws + (2 * Real.sin (θ / 2) ^ 2 * r.x) * ht
  · simp only [mul_quat_vec, from_axis_angle, cross, vadd, smul]
    linear_combination (-t.y) * hs + (-(2 * Real.sin (θ / 2) ^ 2 * t.y)) * hr +
      (r.z * t.x - r.x * t.z) * hws + (2 * Real.sin (θ / 2) ^ 2 * r.y) * ht
  · simp only [mul_quat_vec, from_axis_angle, cross, vadd, smul]
    linear_combination (-t.z) * hs + (-(2 * Real.sin (θ / 2) ^ 2 * t.z)) * hr +
      (r.x * t.y - r.y * t.x) * hws + (2 * Real.sin (θ / 2) ^ 2 * r.z) * ht

lemma quarter_rot_pos (r t : Vec3) (θ : ℝ) (hr : dot r r = 1) (ht : dot t r = 0)
    (hs : 2 * Real.sin (θ / 2) ^ 2 = 1)
    (hws : 2 * Real.cos (θ / 2) * Real.sin (θ / 2) = 1) :
    mul_quat_vec (from_axis_angle r θ) t = cross r t := by
  simp only [dot] at hr ht
  ext
  · simp only [mul_quat_vec, from_axis_angle, cross, vadd, smul]
    linear_combination (-t.x) * hs + (-(2 * Real.sin (θ / 2) ^ 2 * t.x)) * hr +
      (r.y * t.z - r.z * t.y) * hws + (2 * Real.sin (θ / 2) ^ 2 * r.x) * ht
  · simp only [mul_quat_vec, from_axis_angle, cross, vadd, smul]
    linear_combination (-t.y) * hs + (-(2 * Real.sin (θ / 2) ^ 2 * t.y)) * hr +
      (r.z * t.x - r.x * t.z) * hws + (2 * Real.sin (θ / 2) ^ 2 * r.y) * ht
  · simp only [mul_quat_vec, from_axis_angle, cross, vadd, smul]
    linear_combination (-t.z) * hs + (-(2 * Real.sin (θ / 2) ^ 2 * t.z)) * hr +
      (r.x * t.y - r.y * t.x) * hws + (2 * Real.sin (θ / 2) ^ 2 * r.z) * ht

lemma sqrt_two_sq : Real.sqrt 2 ^ 2 = 2 := Real.sq_sqrt (by norm_num)

lemma sin_neg_quarter : Real.sin (-Real.pi / 2 / 2) = -(Real.sqrt 2 / 2) := by
  rw [show (-Real.pi / 2 / 2 : ℝ) = -(Real.pi / 4) by ring, Real.sin_neg,
    Real.sin_pi_div_four]

lemma cos_neg_quarter : Real.cos (-Real.pi / 2 / 2) = Real.sqrt 2 / 2 := by
  rw [show (-Real.pi / 2 / 2 : ℝ) = -(Real.pi / 4) by ring, Real.cos_neg,
    Real.cos_pi_div_four]

lemma sin_pos_quarter : Real.sin (Real.pi / 2 / 2) = Real.sqrt 2 / 2 := by
  rw [show (Real.pi / 2 / 2 : ℝ) = Real.pi / 4 by ring, Real.sin_pi_div_four]

lemma cos_pos_quarter : Real.cos (Real.pi / 2 / 2) = Real.sqrt 2 / 2 := by
  rw [show (Real.pi / 2 / 2 : ℝ) = Real.pi / 4 by ring, Real.cos_pi_div_four]

lemma rot_neg_ninety (r t : Vec3) (hr : dot r r = 1) (ht : dot t r = 0) :
    mul_quat_vec (from_axis_angle r (-Real.pi / 2)) t = cross t r := by
  apply quarter_rot_neg r t _ hr ht
  · rw [sin_neg_quarter]
    linear_combination (1 / 2) * sqrt_two_sq
  · rw [sin_neg_quarter, cos_neg_quarter]
    linear_combination (-(1 / 2)) * sqrt_two_sq

lemma rot_pos_ninety (r t : Vec3) (hr : dot r r = 1) (ht : dot t r = 0) :
    mul_quat_vec (from_axis_angle r (Real.pi / 2)) t = cross r t := by
  apply quarter_rot_pos r t _ hr ht
  · rw [sin_pos_quarter]
    linear_combination (1 / 2) * sqrt_two_sq
  · rw [sin_pos_quarter, cos_pos_quarter]
    linear_combination (1 / 2) * sqrt_two_sq

/- ### Concrete unit vectors used by the witnesses -/

lemma vnorm_unitX : vnorm ⟨1, 0, 0⟩ = 1 := by
  show Real.sqrt ((1 : ℝ) * 1 + 0 * 0 + 0 * 0) = 1
  norm_num [Real.sqrt_one]

lemma vnorm_unitY : vnorm ⟨0, 1, 0⟩ = 1 := by
  show Real.sqrt ((0 : ℝ) * 0 + 1 * 1 + 0 * 0) = 1
  norm_num [Real.sqrt_one]

lemma vnorm_unitZ : vnorm ⟨0, 0, 1⟩ = 1 := by
  show Real.sqrt ((0 : ℝ) * 0 + 0 * 0 + 1 * 1) = 1
  norm_num [Real.sqrt_one]

/- ### Claim theorems -/

/-- C3: for every unit-length axis `a`, every angle `θ`, and every vector `v`,
applying `mul_quat_vec` with the quaternion `from_axis_angle a θ` preserves the
Euclidean length of `v` (exactly, in real arithmetic). -/
theorem rotation_preserves_length (a : Vec3) (θ : ℝ) (v : Vec3)
    (ha : vnorm a = 1) :
    vnorm (mul_quat_vec (from_axis_angle a θ) v) = vnorm v :=
  rot_vnorm a θ v (dot_self_eq_one_of_vnorm a ha)

/-- Witness for C3 at the concrete input `a = (1,0,0)`, `θ = 0`, `v = (3,4,12)`. -/
theorem rotation_preserves_length_witness :
    vnorm (mul_quat_vec (from_axis_angle ⟨1, 0, 0⟩ 0) ⟨3, 4, 12⟩) =
      vnorm ⟨3, 4, 12⟩ :=
  rotation_preserves_length ⟨1, 0, 0⟩ 0 ⟨3, 4, 12⟩ vnorm_unitX

/-- C4: rotating `v` by `θ` about a unit axis `a` and then by `-θ` about `a`
returns `v` (exactly, in real arithmetic). -/
theorem rotation_inverse (a : Vec3) (θ : ℝ) (v : Vec3) (ha : vnorm a = 1) :
    mul_quat_vec (from_axis_angle a (-θ)) (mul_quat_vec (from_axis_angle a θ) v)
      = v := by
  have hd : dot a a = 1 := dot_self_eq_one_of_vnorm a ha
  have hneg : from_axis_angle a (-θ) =
      ⟨-(a.x * Real.sin (θ / 2)), -(a.y * Real.sin (θ / 2)),
        -(a.z * Real.sin (θ / 2)), Real.cos (θ / 2)⟩ := by
    simp only [from_axis_angle, neg_div, Real.sin_neg, Real.cos_neg, mul_neg]
  rw [hneg, from_axis_angle_def]
  exact rot_unrot _ _ _ _ v (unit_quat_of_unit_axis a θ hd)

/-- Witness for C4 at the concrete input `a = (0,0,1)`, `θ = 1`, `v = (5,6,7)`. -/
theorem rotation_inverse_witness :
    mul_quat_vec (from_axis_angle ⟨0, 0, 1⟩ (-1))
      (mul_quat_vec (from_axis_angle ⟨0, 0, 1⟩ 1) ⟨5, 6, 7⟩) = ⟨5, 6, 7⟩ :=
  rotation_inverse ⟨0, 0, 1⟩ 1 ⟨5, 6, 7⟩ vnorm_unitZ

/-- C10: for every unit-length axis `a` and every angle `θ`, the quaternion
returned by `from_axis_angle a θ` has unit norm: the sum of squares of its four
components equals 1. -/
theorem axis_angle_quat_unit (a : Vec3) (θ : ℝ) (ha : vnorm a = 1) :
    (from_axis_angle a θ).x ^ 2 + (from_axis_angle a θ).y ^ 2 +
      (from_axis_angle a θ).z ^ 2 + (from_axis_angle a θ).w ^ 2 = 1 := by
  rw [from_axis_angle_def]
  exact unit_quat_of_unit_axis a θ (dot_self_eq_one_of_vnorm a ha)

/-- Witness for C10 at the concrete input `a = (0,1,0)`, `θ = 2`. -/
theorem axis_angle_quat_unit_witness :
    (from_axis_angle ⟨0, 1, 0⟩ 2).x ^ 2 + (from_axis_angle ⟨0, 1, 0⟩ 2).y ^ 2 +
      (from_axis_angle ⟨0, 1, 0⟩ 2).z ^ 2 + (from_axis_angle ⟨0, 1, 0⟩ 2).w ^ 2
      = 1 :=
  axis_angle_quat_unit ⟨0, 1, 0⟩ 2 vnorm_unitY

/-- C5: for an orthonormal front/up/right basis, the top normal obtained by
rotating the top edge direction a further -90 degrees about `right` (the
implemented path) equals, after normalization, `normalize(cross(top_dir, right))`
(the cross-product technique); symmetrically, the bottom normal obtained by a
further +90 degrees about `right` equals `normalize(cross(right, bottom_dir))`. -/
theorem edge_to_normal_techniques_agree (front up right : Vec3) (phi : ℝ)
    (h1 : vnorm front = 1) (h2 : vnorm up = 1) (h3 : vnorm right = 1)
    (h4 : dot front up = 0) (h5 : dot front right = 0) (h6 : dot up right = 0) :
    (vdiv (mul_quat_vec (from_axis_angle right (-Real.pi / 2))
        (mul_quat_vec (from_axis_angle right phi) front))
      (vnorm (mul_quat_vec (from_axis_angle right (-Real.pi / 2))
        (mul_quat_vec (from_axis_angle right phi) front))) =
      vdiv (cross (mul_quat_vec (from_axis_angle right phi) front) right)
        (vnorm (cross (mul_quat_vec (from_axis_angle right phi) front) right)))
    ∧
    (vdiv (mul_quat_vec (from_axis_angle right (Real.pi / 2))
        (mul_quat_vec (from_axis_angle right (-phi)) front))
      (vnorm (mul_quat_vec (from_axis_angle right (Real.pi / 2))
        (mul_quat_vec (from_axis_angle right (-phi)) front))) =
      vdiv (cross right (mul_quat_vec (from_axis_angle right (-phi)) front))
        (vnorm (cross right (mul_quat_vec (from_axis_angle right (-phi)) front)))) := by
  have hrd : dot right right = 1 := dot_self_eq_one_of_vnorm right h3
  have htop : dot (mul_quat_vec (from_axis_angle right phi) front) right = 0 := by
    rw [rot_dot_axis]
    exact h5
  have hbot : dot (mul_quat_vec (from_axis_angle right (-phi)) front) right = 0 := by
    rw [rot_dot_axis]
    exact h5
  constructor
  · rw [rot_neg_ninety right _ hrd htop]
  · rw [rot_pos_ninety right _ hrd hbot]

/-- Witness for C5 at the concrete orthonormal basis
`front = (1,0,0)`, `up = (0,1,0)`, `right = (0,0,1)` and `phi = 0`. -/
theorem edge_to_normal_techniques_agree_witness :
    (vdiv (mul_quat_vec (from_axis_angle ⟨0, 0, 1⟩ (-Real.pi / 2))
        (mul_quat_vec (from_axis_angle ⟨0, 0, 1⟩ 0) ⟨1, 0, 0⟩))
      (vnorm (mul_quat_vec (from_axis_angle ⟨0, 0, 1⟩ (-Real.pi / 2))
        (mul_quat_vec (from_axis_angle ⟨0, 0, 1⟩ 0) ⟨1, 0, 0⟩))) =
      vdiv (cross (mul_quat_vec (from_axis_angle ⟨0, 0, 1⟩ 0) ⟨1, 0, 0⟩) ⟨0, 0, 1⟩)
        (vnorm (cross (mul_quat_vec (from_axis_angle ⟨0, 0, 1⟩ 0) ⟨1, 0, 0⟩) ⟨0, 0, 1⟩)))
    ∧
    (vdiv (mul_quat_vec (from_axis_angle ⟨0, 0, 1⟩ (Real.pi / 2))
        (mul_quat_vec (from_axis_angle ⟨0, 0, 1⟩ (-0)) ⟨1, 0, 0⟩))
      (vnorm (mul_quat_vec (from_axis_angle ⟨0, 0, 1⟩ (Real.pi / 2))
        (mul_quat_vec (from_axis_angle ⟨0, 0, 1⟩ (-0)) ⟨1, 0, 0⟩))) =
      vdiv (cross ⟨0, 0, 1⟩ (mul_quat_vec (from_axis_angle ⟨0, 0, 1⟩ (-0)) ⟨1, 0, 0⟩))
        (vnorm (cross ⟨0, 0, 1⟩ (mul_quat_vec (from_axis_angle ⟨0, 0, 1⟩ (-0)) ⟨1, 0, 0⟩)))) :=
  edge_to_normal_techniques_agree ⟨1, 0, 0⟩ ⟨0, 1, 0⟩ ⟨0, 0, 1⟩ 0
    vnorm_unitX vnorm_unitY vnorm_unitZ
    (by show (1 : ℝ) * 0 + 0 * 1 + 0 * 0 = 0; norm_num)
    (by show (1 : ℝ) * 0 + 0 * 0 + 0 * 1 = 0; norm_num)
    (by show (0 : ℝ) * 0 + 1 * 0 + 0 * 1 = 0; norm_num)

/-- C6: the computed plane normals and offsets do not depend on `znear` or
`zfar`: two invocations of `find_planes` differing only in `znear`/`zfar`
produce identical planes (and in fact identical full results). -/
theorem planes_ignore_near_far (eye target up : Vec3)
    (aspect fovy z1 z2 w1 w2 : ℝ) :
    (find_planes eye target up aspect fovy z1 z2).planes =
      (find_planes eye target up aspect fovy w1 w2).planes := rfl

/-- A concrete valid input shared by the witnesses below. -/
lemma validExample : ValidInput ⟨0, 0, -1⟩ ⟨0, 1, 0⟩ 1 90 := by
  refine ⟨?_, ?_, ?_, by norm_num, by norm_num, by norm_num⟩
  · norm_num [vzero, Vec3.mk.injEq]
  · norm_num [vzero, Vec3.mk.injEq]
  · norm_num [cross, vzero, Vec3.mk.injEq]

/-- C1: for every valid input, `find_planes` returns the four planes top,
bottom, left, right, each a pair of a normal `n` and the offset
`d = dot(n, position)`, so each plane passes through the camera eye position. -/
theorem planes_pass_through_eye (eye target up : Vec3)
    (aspect fovy znear zfar : ℝ) (h : ValidInput target up aspect fovy) :
    dot (find_planes eye target up aspect fovy znear zfar).planes.top.normal eye =
      (find_planes eye target up aspect fovy znear zfar).planes.top.d ∧
    dot (find_planes eye target up aspect fovy znear zfar).planes.bottom.normal eye =
      (find_planes eye target up aspect fovy znear zfar).planes.bottom.d ∧
    dot (find_planes eye target up aspect fovy znear zfar).planes.left.normal eye =
      (find_planes eye target up aspect fovy znear zfar).planes.left.d ∧
    dot (find_planes eye target up aspect fovy znear zfar).planes.right.normal eye =
      (find_planes eye target up aspect fovy znear zfar).planes.right.d :=
  ⟨rfl, rfl, rfl, rfl⟩

/-- Witness for C1 at a concrete valid input. -/
theorem planes_pass_through_eye_witness :
    dot (find_planes ⟨1, 2, 3⟩ ⟨0, 0, -1⟩ ⟨0, 1, 0⟩ 1 90 0.1 100).planes.top.normal ⟨1, 2, 3⟩ =
      (find_planes ⟨1, 2, 3⟩ ⟨0, 0, -1⟩ ⟨0, 1, 0⟩ 1 90 0.1 100).planes.top.d ∧
    dot (find_planes ⟨1, 2, 3⟩ ⟨0, 0, -1⟩ ⟨0, 1, 0⟩ 1 90 0.1 100).planes.bottom.normal ⟨1, 2, 3⟩ =
      (find_planes ⟨1, 2, 3⟩ ⟨0, 0, -1⟩ ⟨0, 1, 0⟩ 1 90 0.1 100).planes.bottom.d ∧
    dot (find_planes ⟨1, 2, 3⟩ ⟨0, 0, -1⟩ ⟨0, 1, 0⟩ 1 90 0.1 100).planes.left.normal ⟨1, 2, 3⟩ =
      (find_planes ⟨1, 2, 3⟩ ⟨0, 0, -1⟩ ⟨0, 1, 0⟩ 1 90 0.1 100).planes.left.d ∧
    dot (find_planes ⟨1, 2, 3⟩ ⟨0, 0, -1⟩ ⟨0, 1, 0⟩ 1 90 0.1 100).planes.right.normal ⟨1, 2, 3⟩ =
      (find_planes ⟨1, 2, 3⟩ ⟨0, 0, -1⟩ ⟨0, 1, 0⟩ 1 90 0.1 100).planes.right.d :=
  planes_pass_through_eye ⟨1, 2, 3⟩ ⟨0, 0, -1⟩ ⟨0, 1, 0⟩ 1 90 0.1 100 validExample

/-- C8: for every valid input, the computed `right` vector is orthogonal to
both `front` and `up` (exactly, in real arithmetic). -/
theorem right_orthogonal (eye target up : Vec3) (aspect fovy znear zfar : ℝ)
    (h : ValidInput target up aspect fovy) :
    dot (find_planes eye target up aspect fovy znear zfar).right
        (find_planes eye target up aspect fovy znear zfar).front = 0 ∧
    dot (find_planes eye target up aspect fovy znear zfar).right
        (find_planes eye target up aspect fovy znear zfar).up_norm = 0 := by
  simp only [find_planes]
  constructor
  · rw [dot_vdiv_left, dot_cross_left]
    exact zero_div _
  · rw [dot_vdiv_left, dot_cross_right]
    exact zero_div _

/-- Witness for C8 at a concrete valid input. -/
theorem right_orthogonal_witness :
    dot (find_planes ⟨1, 2, 3⟩ ⟨0, 0, -1⟩ ⟨0, 1, 0⟩ 1 90 0.1 100).right
        (find_planes ⟨1, 2, 3⟩ ⟨0, 0, -1⟩ ⟨0, 1, 0⟩ 1 90 0.1 100).front = 0 ∧
    dot (find_planes ⟨1, 2, 3⟩ ⟨0, 0, -1⟩ ⟨0, 1, 0⟩ 1 90 0.1 100).right
        (find_planes ⟨1, 2, 3⟩ ⟨0, 0, -1⟩ ⟨0, 1, 0⟩ 1 90 0.1 100).up_norm = 0 :=
  right_orthogonal ⟨1, 2, 3⟩ ⟨0, 0, -1⟩ ⟨0, 1, 0⟩ 1 90 0.1 100 validExample

/-- C7: for every valid input, the basis vectors `front`, `up`, `right` and the
four returned plane normals all have Euclidean length 1 (exactly, in real
arithmetic, hence within the `1e-6` tolerance the spec asks for). -/
theorem basis_and_normals_unit (eye target up : Vec3)
    (aspect fovy znear zfar : ℝ) (h : ValidInput target up aspect fovy) :
    vnorm (find_planes eye target up aspect fovy znear zfar).front = 1 ∧
    vnorm (find_planes eye target up aspect fovy znear zfar).up_norm = 1 ∧
    vnorm (find_planes eye target up aspect fovy znear zfar).right = 1 ∧
    vnorm (find_planes eye target up aspect fovy znear zfar).planes.top.normal = 1 ∧
    vnorm (find_planes eye target up aspect fovy znear zfar).planes.bottom.normal = 1 ∧
    vnorm (find_planes eye target up aspect fovy znear zfar).planes.left.normal = 1 ∧
    vnorm (find_planes eye target up aspect fovy znear zfar).planes.right.normal = 1 := by
  obtain ⟨ht, hu, hc, _, _, _⟩ := h
  simp only [find_planes]
  set F := vdiv target (vnorm target) with hF
  set U := vdiv up (vnorm up) with hU
  have hF1 : vnorm F = 1 := vnorm_normalize target ht
  have hU1 : vnorm U = 1 := vnorm_normalize up hu
  have hCFU : cross F U ≠ vzero := by
    rw [hF, hU, cross_vdiv]
    exact vdiv_ne_vzero _ _ hc
      (mul_ne_zero (ne_of_gt (vnorm_pos target ht)) (ne_of_gt (vnorm_pos up hu)))
  set R := vdiv (cross F U) (vnorm (cross F U)) with hR
  have hR1 : vnorm R = 1 := vnorm_normalize _ hCFU
  have hRd : dot R R = 1 := dot_self_eq_one_of_vnorm _ hR1
  have hUd : dot U U = 1 := dot_self_eq_one_of_vnorm _ hU1
  have hFd : dot F F = 1 := dot_self_eq_one_of_vnorm _ hF1
  have hTop : vnorm (mul_quat_vec (from_axis_angle R (-Real.pi / 2))
      (mul_quat_vec (from_axis_angle R (deg2rad fovy * 0.5)) F)) = 1 := by
    rw [rot_vnorm _ _ _ hRd, rot_vnorm _ _ _ hRd]
    exact hF1
  have hBot : vnorm (mul_quat_vec (from_axis_angle R (Real.pi / 2))
      (mul_quat_vec (from_axis_angle R (-(deg2rad fovy * 0.5))) F)) = 1 := by
    rw [rot_vnorm _ _ _ hRd, rot_vnorm _ _ _ hRd]
    exact hF1
  have hdotFU2 : dot F U ^ 2 < 1 := by
    have hpos : 0 < dot (cross F U) (cross F U) := dot_self_pos _ hCFU
    rw [lagrange_identity, hFd, hUd] at hpos
    nlinarith [hpos]
  have hLD : dot (mul_quat_vec (from_axis_angle U
      (Real.arctan (Real.tan (deg2rad fovy * 0.5) * aspect))) F)
      (mul_quat_vec (from_axis_angle U
      (Real.arctan (Real.tan (deg2rad fovy * 0.5) * aspect))) F) = 1 := by
    rw [rot_preserves_dot_self _ _ _ hUd]
    exact hFd
  have hLDU : dot (mul_quat_vec (from_axis_angle U
      (Real.arctan (Real.tan (deg2rad fovy * 0.5) * aspect))) F) U = dot F U :=
    rot_dot_axis U F _
  have hLraw : 0 < dot (cross (mul_quat_vec (from_axis_angle U
      (Real.arctan (Real.tan (deg2rad fovy * 0.5) * aspect))) F) U)
      (cross (mul_quat_vec (from_axis_angle U
      (Real.arctan (Real.tan (deg2rad fovy * 0.5) * aspect))) F) U) := by
    rw [lagrange_identity, hLD, hUd, hLDU]
    nlinarith [hdotFU2]
  have hRD : dot (mul_quat_vec (from_axis_angle U
      (-Real.arctan (Real.tan (deg2rad fovy * 0.5) * aspect))) F)
      (mul_quat_vec (from_axis_angle U
      (-Real.arctan (Real.tan (deg2rad fovy * 0.5) * aspect))) F) = 1 := by
    rw [rot_preserves_dot_self _ _ _ hUd]
    exact hFd
  have hRDU : dot (mul_quat_vec (from_axis_angle U
      (-Real.arctan (Real.tan (deg2rad fovy * 0.5) * aspect))) F) U = dot F U :=
    rot_dot_axis U F _
  have hRraw : 0 < dot (cross (mul_quat_vec (from_axis_angle U
      (-Real.arctan (Real.tan (deg2rad fovy * 0.5) * aspect))) F) U)
      (cross (mul_quat_vec (from_axis_angle U
      (-Real.arctan (Real.tan (deg2rad fovy * 0.5) * aspect))) F) U) := by
    rw [lagrange_identity, hRD, hUd, hRDU]
    nlinarith [hdotFU2]
  exact ⟨hF1, hU1, hR1,
    vnorm_normalize _ (ne_vzero_of_vnorm_one _ hTop),
    vnorm_normalize _ (ne_vzero_of_vnorm_one _ hBot),
    vnorm_normalize _ (ne_vzero_of_dot_pos _ hLraw),
    vnorm_normalize _ (ne_vzero_of_dot_pos _ hRraw)⟩

/-- Witness for C7 at a concrete valid input. -/
theorem basis_and_normals_unit_witness :
    vnorm (find_planes ⟨1, 2, 3⟩ ⟨0, 0, -1⟩ ⟨0, 1, 0⟩ 1 90 0.1 100).front = 1 ∧
    vnorm (find_planes ⟨1, 2, 3⟩ ⟨0, 0, -1⟩ ⟨0, 1, 0⟩ 1 90 0.1 100).up_norm = 1 ∧
    vnorm (find_planes ⟨1, 2, 3⟩ ⟨0, 0, -1⟩ ⟨0, 1, 0⟩ 1 90 0.1 100).right = 1 ∧
    vnorm (find_planes ⟨1, 2, 3⟩ ⟨0, 0, -1⟩ ⟨0, 1, 0⟩ 1 90 0.1 100).planes.top.normal = 1 ∧
    vnorm (find_planes ⟨1, 2, 3⟩ ⟨0, 0, -1⟩ ⟨0, 1, 0⟩ 1 90 0.1 100).planes.bottom.normal = 1 ∧
    vnorm (find_planes ⟨1, 2, 3⟩ ⟨0, 0, -1⟩ ⟨0, 1, 0⟩ 1 90 0.1 100).planes.left.normal = 1 ∧
    vnorm (find_planes ⟨1, 2, 3⟩ ⟨0, 0, -1⟩ ⟨0, 1, 0⟩ 1 90 0.1 100).planes.right.normal = 1 :=
  basis_and_normals_unit ⟨1, 2, 3⟩ ⟨0, 0, -1⟩ ⟨0, 1, 0⟩ 1 90 0.1 100 validExample

/-- C2 counterexample: with `view_direction = (0,0,0)` the code does not fail;
`find_planes` returns a degenerate result whose top plane normal has length 0
(the real-arithmetic analogue of numpy's NaN-filled output), not a unit normal.
So the claim that the call fails with an InvalidArgument error rather than
returning degenerate results is false of the code. -/
theorem zero_view_counterexample :
    vnorm (find_planes ⟨10, 10, 10⟩ ⟨0, 0, 0⟩ ⟨0, 1, 0⟩
      1.8695229 90 0.1 100).planes.top.normal ≠ 1 := by
  have hz : (find_planes ⟨10, 10, 10⟩ ⟨0, 0, 0⟩ ⟨0, 1, 0⟩
      1.8695229 90 0.1 100).planes.top.normal = vzero := by
    ext <;> simp [find_planes, mul_quat_vec, from_axis_angle, cross, vadd,
      smul, vdiv, vzero]
  rw [hz]
  show Real.sqrt ((0 : ℝ) * 0 + 0 * 0 + 0 * 0) ≠ 1
  norm_num [Real.sqrt_zero]

/-- C2 (amended): `find_planes` performs no input validation; called with
`view_direction = (0,0,0)` it does not fail, and the division by the zero norm
propagates so that the returned `front` vector and all four returned plane
normals are degenerate (NaN-filled in floating point; the zero vector under
the real-field convention `x / 0 = 0` used by this embedding). -/
theorem zero_view_returns_degenerate :
    (find_planes ⟨10, 10, 10⟩ ⟨0, 0, 0⟩ ⟨0, 1, 0⟩
      1.8695229 90 0.1 100).front = vzero ∧
    (find_planes ⟨10, 10, 10⟩ ⟨0, 0, 0⟩ ⟨0, 1, 0⟩
      1.8695229 90 0.1 100).planes.top.normal = vzero ∧
    (find_planes ⟨10, 10, 10⟩ ⟨0, 0, 0⟩ ⟨0, 1, 0⟩
      1.8695229 90 0.1 100).planes.bottom.normal = vzero ∧
    (find_planes ⟨10, 10, 10⟩ ⟨0, 0, 0⟩ ⟨0, 1, 0⟩
      1.8695229 90 0.1 100).planes.left.normal = vzero ∧
    (find_planes ⟨10, 10, 10⟩ ⟨0, 0, 0⟩ ⟨0, 1, 0⟩
      1.8695229 90 0.1 100).planes.right.normal = vzero := by
  refine ⟨?_, ?_, ?_, ?_, ?_⟩ <;>
    (ext <;> simp [find_planes, mul_quat_vec, from_axis_angle, cross, vadd,
      smul, vdiv, vzero])

/- ### Numeric bounds for the concrete scenario (C9) -/

lemma le_sqrt_of_sq_le (l a : ℝ) (hl : 0 ≤ l) (h : l ^ 2 ≤ a) :
    l ≤ Real.sqrt a := by
  have h1 := Real.sqrt_le_sqrt h
  rwa [Real.sqrt_sq hl] at h1

lemma sqrt_le_of_le_sq (a u : ℝ) (hu : 0 ≤ u) (h : a ≤ u ^ 2) :
    Real.sqrt a ≤ u := by
  have h1 := Real.sqrt_le_sqrt h
  rwa [Real.sqrt_sq hu] at h1

lemma abs_div_sub_le (x d t e : ℝ) (hd : 0 < d) (h : |x - t * d| ≤ e * d) :
    |x / d - t| ≤ e := by
  have h1 : x / d - t = (x - t * d) / d := by
    field_simp
    ring
  rw [h1, abs_div, abs_of_pos hd, div_le_iff hd]
  exact h

lemma vnorm_concrete_bounds :
    (0.99999998 : ℝ) ≤ vnorm ⟨-0.57735026, -0.57735026, -0.57735026⟩ ∧
      vnorm ⟨-0.57735026, -0.57735026, -0.57735026⟩ ≤ 0.99999999 := by
  have hds : dot (⟨-0.57735026, -0.57735026, -0.57735026⟩ : Vec3)
      ⟨-0.57735026, -0.57735026, -0.57735026⟩ = 0.9999999681662028 := by
    norm_num [dot]
  constructor
  · show (0.99999998 : ℝ) ≤ Real.sqrt (dot ⟨-0.57735026, -0.57735026, -0.57735026⟩
      ⟨-0.57735026, -0.57735026, -0.57735026⟩)
    rw [hds]
    exact le_sqrt_of_sq_le _ _ (by norm_num) (by norm_num)
  · show Real.sqrt (dot ⟨-0.57735026, -0.57735026, -0.57735026⟩
      ⟨-0.57735026, -0.57735026, -0.57735026⟩) ≤ 0.99999999
    rw [hds]
    exact sqrt_le_of_le_sq _ _ (by norm_num) (by norm_num)

lemma sqrt_two_bounds : (1.4142135 : ℝ) ≤ Real.sqrt 2 ∧ Real.sqrt 2 ≤ 1.4142136 :=
  ⟨le_sqrt_of_sq_le _ _ (by norm_num) (by norm_num),
    sqrt_le_of_le_sq _ _ (by norm_num) (by norm_num)⟩

lemma inv_sqrt_two_bound : |1 / Real.sqrt 2 - 0.70711| ≤ 0.00001 := by
  have hs2 : (0 : ℝ) < Real.sqrt 2 := Real.sqrt_pos.mpr (by norm_num)
  refine abs_div_sub_le _ _ _ _ hs2 ?_
  rw [abs_le]
  constructor <;> linarith [sqrt_two_bounds.1, sqrt_two_bounds.2]

lemma normalize_diag_pos (t : ℝ) (ht : 0 < t) :
    vdiv ⟨t, 0, -t⟩ (vnorm ⟨t, 0, -t⟩) =
      ⟨1 / Real.sqrt 2, 0, -(1 / Real.sqrt 2)⟩ := by
  have hw : vnorm ⟨t, 0, -t⟩ = t * Real.sqrt 2 := by
    show Real.sqrt (t * t + 0 * 0 + -t * -t) = t * Real.sqrt 2
    rw [show t * t + 0 * 0 + -t * -t = t ^ 2 * 2 by ring,
      Real.sqrt_mul (sq_nonneg t), Real.sqrt_sq (le_of_lt ht)]
  rw [hw]
  ext
  · show t / (t * Real.sqrt 2) = 1 / Real.sqrt 2
    rw [div_mul_eq_div_div, div_self (ne_of_gt ht)]
  · show (0 : ℝ) / (t * Real.sqrt 2) = 0
    exact zero_div _
  · show -t / (t * Real.sqrt 2) = -(1 / Real.sqrt 2)
    rw [neg_div, div_mul_eq_div_div, div_self (ne_of_gt ht)]

/-- C9: for the concrete input `eye = (10,10,10)`,
`view_direction = (-0.57735026, -0.57735026, -0.57735026)`, `world_up = (0,1,0)`
(with the aspect, fovy, znear, zfar values of the source's `__main__` call),
the basis computed by `find_planes` is
`front ≈ (-0.57735, -0.57735, -0.57735)`, `up ≈ (0, 1, 0)`,
`right ≈ (0.70711, 0, -0.70711)`, within a `1e-5` tolerance (the spec gives the
expected values to five decimal places). -/
theorem concrete_scenario_basis :
    |(find_planes ⟨10, 10, 10⟩ ⟨-0.57735026, -0.57735026, -0.57735026⟩ ⟨0, 1, 0⟩
      1.8695229 90 0.1 100).front.x - (-0.57735)| ≤ 0.00001 ∧
    |(find_planes ⟨10, 10, 10⟩ ⟨-0.57735026, -0.57735026, -0.57735026⟩ ⟨0, 1, 0⟩
      1.8695229 90 0.1 100).front.y - (-0.57735)| ≤ 0.00001 ∧
    |(find_planes ⟨10, 10, 10⟩ ⟨-0.57735026, -0.57735026, -0.57735026⟩ ⟨0, 1, 0⟩
      1.8695229 90 0.1 100).front.z - (-0.57735)| ≤ 0.00001 ∧
    |(find_planes ⟨10, 10, 10⟩ ⟨-0.57735026, -0.57735026, -0.57735026⟩ ⟨0, 1, 0⟩
      1.8695229 90 0.1 100).up_norm.x - 0| ≤ 0.00001 ∧
    |(find_planes ⟨10, 10, 10⟩ ⟨-0.57735026, -0.57735026, -0.57735026⟩ ⟨0, 1, 0⟩
      1.8695229 90 0.1 100).up_norm.y - 1| ≤ 0.00001 ∧
    |(find_planes ⟨10, 10, 10⟩ ⟨-0.57735026, -0.57735026, -0.57735026⟩ ⟨0, 1, 0⟩
      1.8695229 90 0.1 100).up_norm.z - 0| ≤ 0.00001 ∧
    |(find_planes ⟨10, 10, 10⟩ ⟨-0.57735026, -0.57735026, -0.57735026⟩ ⟨0, 1, 0⟩
      1.8695229 90 0.1 100).right.x - 0.70711| ≤ 0.00001 ∧
    |(find_planes ⟨10, 10, 10⟩ ⟨-0.57735026, -0.57735026, -0.57735026⟩ ⟨0, 1, 0⟩
      1.8695229 90 0.1 100).right.y - 0| ≤ 0.00001 ∧
    |(find_planes ⟨10, 10, 10⟩ ⟨-0.57735026, -0.57735026, -0.57735026⟩ ⟨0, 1, 0⟩
      1.8695229 90 0.1 100).right.z - (-0.70711)| ≤ 0.00001 := by
  have hlo := vnorm_concrete_bounds.1
  have hhi := vnorm_concrete_bounds.2
  have hnpos : (0 : ℝ) < vnorm ⟨-0.57735026, -0.57735026, -0.57735026⟩ :=
    lt_of_lt_of_le (by norm_num) hlo
  have hUeq : vdiv (⟨0, 1, 0⟩ : Vec3) (vnorm ⟨0, 1, 0⟩) = ⟨0, 1, 0⟩ := by
    rw [vnorm_unitY]
    ext <;> simp [vdiv]
  have hcr : cross
      (vdiv (⟨-0.57735026, -0.57735026, -0.57735026⟩ : Vec3)
        (vnorm ⟨-0.57735026, -0.57735026, -0.57735026⟩))
      (vdiv (⟨0, 1, 0⟩ : Vec3) (vnorm ⟨0, 1, 0⟩)) =
      ⟨0.57735026 / vnorm ⟨-0.57735026, -0.57735026, -0.57735026⟩, 0,
        -(0.57735026 / vnorm ⟨-0.57735026, -0.57735026, -0.57735026⟩)⟩ := by
    rw [hUeq]
    ext <;> simp only [cross, vdiv] <;> ring
  have hspos : (0 : ℝ) < 0.57735026 / vnorm ⟨-0.57735026, -0.57735026, -0.57735026⟩ :=
    div_pos (by norm_num) hnpos
  have hRfinal : (find_planes ⟨10, 10, 10⟩ ⟨-0.57735026, -0.57735026, -0.57735026⟩
      ⟨0, 1, 0⟩ 1.8695229 90 0.1 100).right =
      ⟨1 / Real.sqrt 2, 0, -(1 / Real.sqrt 2)⟩ := by
    show vdiv
      (cross
        (vdiv (⟨-0.57735026, -0.57735026, -0.57735026⟩ : Vec3)
          (vnorm ⟨-0.57735026, -0.57735026, -0.57735026⟩))
        (vdiv (⟨0, 1, 0⟩ : Vec3) (vnorm ⟨0, 1, 0⟩)))
      (vnorm (cross
        (vdiv (⟨-0.57735026, -0.57735026, -0.57735026⟩ : Vec3)
          (vnorm ⟨-0.57735026, -0.57735026, -0.57735026⟩))
        (vdiv (⟨0, 1, 0⟩ : Vec3) (vnorm ⟨0, 1, 0⟩)))) =
      ⟨1 / Real.sqrt 2, 0, -(1 / Real.sqrt 2)⟩
    rw [hcr]
    exact normalize_diag_pos _ hspos
  refine ⟨?_, ?_, ?_, ?_, ?_, ?_, ?_, ?_, ?_⟩
  · show |(-0.57735026) / vnorm ⟨-0.57735026, -0.57735026, -0.57735026⟩ -
      (-0.57735)| ≤ 0.00001
    refine abs_div_sub_le _ _ _ _ hnpos ?_
    rw [abs_le]
    constructor <;> linarith [hlo, hhi]
  · show |(-0.57735026) / vnorm ⟨-0.57735026, -0.57735026, -0.57735026⟩ -
      (-0.57735)| ≤ 0.00001
    refine abs_div_sub_le _ _ _ _ hnpos ?_
    rw [abs_le]
    constructor <;> linarith [hlo, hhi]
  · show |(-0.57735026) / vnorm ⟨-0.57735026, -0.57735026, -0.57735026⟩ -
      (-0.57735)| ≤ 0.00001
    refine abs_div_sub_le _ _ _ _ hnpos ?_
    rw [abs_le]
    constructor <;> linarith [hlo, hhi]
  · show |(0 : ℝ) / vnorm ⟨0, 1, 0⟩ - 0| ≤ 0.00001
    rw [vnorm_unitY]
    norm_num
  · show |(1 : ℝ) / vnorm ⟨0, 1, 0⟩ - 1| ≤ 0.00001
    rw [vnorm_unitY]
    norm_num
  · show |(0 : ℝ) / vnorm ⟨0, 1, 0⟩ - 0| ≤ 0.00001
    rw [vnorm_unitY]
    norm_num
  · rw [hRfinal]
    show |1 / Real.sqrt 2 - 0.70711| ≤ 0.00001
    exact inv_sqrt_two_bound
  · rw [hRfinal]
    show |(0 : ℝ) - 0| ≤ 0.00001
    norm_num
  · rw [hRfinal]
    show |-(1 / Real.sqrt 2) - (-0.70711)| ≤ 0.00001
    rw [show -(1 / Real.sqrt 2) - (-0.70711) = -(1 / Real.sqrt 2 - 0.70711) by ring,
      abs_neg]
    exact inv_sqrt_two_bound
